import Mathlib

/-!
Verification of the `coolpack prepare` pipeline
(src/cmd/coolpack/prepare.go) against its specification.

The Go source mutates a `*Plan` in place; here every stage is embedded as a
pure function `Plan → Plan`.  The OS environment is modelled as an
association list (`os.Getenv` returns `""` for an unset variable,
`os.LookupEnv` distinguishes unset from empty).  The Go metadata map
`map[string]interface{}` is used by prepare.go with the closed key set
`static_server`, `is_spa`, `output_dir_override`, `custom_packages`; it is
embedded as a structure with one optional field per key (`is_spa` as a
presence flag, matching the spec's "presence of key = true").  The nil-map
guard `if plan.Metadata == nil` in the source is subsumed by the total
structure.
-/

namespace Coolpack

/-- The OS environment: association list of variable names to values. -/
abbrev OSEnv := List (String × String)

/-- Embedding of Go `os.Getenv`: the variable's value, or `""` when unset. -/
def getenv (osEnv : OSEnv) (key : String) : String :=
  ((osEnv.find? (fun p => p.1 == key)).map Prod.snd).getD ""

/-- Embedding of Go `os.LookupEnv`: distinguishes unset from empty. -/
def lookupEnv (osEnv : OSEnv) (key : String) : Option String :=
  (osEnv.find? (fun p => p.1 == key)).map Prod.snd

/-- The closed-key metadata map of a Plan (spec §3): `static_server`,
`is_spa` (presence flag), `output_dir_override`, `custom_packages`. -/
structure Metadata where
  static_server : Option String
  is_spa : Bool
  output_dir_override : Option String
  custom_packages : Option (List String)
deriving DecidableEq

/-- The Plan data model (spec §3; Go `detector.Plan` / `app.Plan` as used by
prepare.go: `InstallCommand`, `BuildCommand`, `StartCommand`, `BuildEnv`,
`Metadata`, plus `language`/`packageManager` from the spec's field list). -/
structure Plan where
  language : String
  packageManager : String
  installCommand : String
  buildCommand : String
  startCommand : String
  buildEnv : List (String × String)
  metadata : Metadata
deriving DecidableEq

/-- The CLI flag values of `coolpack prepare` (prepare.go lines 16–28). -/
structure Flags where
  installCmd : String
  buildCmd : String
  startCmd : String
  staticServer : String
  outputDir : String
  spa : Bool
  noSPA : Bool
  packages : List String
  buildEnvs : List String
  planFile : String
deriving DecidableEq

/-- First-occurrence deduplication with an explicit `seen` accumulator:
embedding of the `seen`-map loop in prepareApplyCustomPackages
(prepare.go lines 301–309). -/
def uniqueFirstAux (seen : List String) : List String → List String
  | [] => []
  | p :: rest =>
    if p ∈ seen then uniqueFirstAux seen rest
    else p :: uniqueFirstAux (p :: seen) rest

/-- Deduplication preserving the first occurrence of each entry. -/
def uniqueFirst (l : List String) : List String := uniqueFirstAux [] l

/-- Embedding of Go `unicode.IsSpace` on Latin-1 characters (the white-space
set strings.TrimSpace removes there): space, tab, newline, vertical tab,
form feed, carriage return, NEL, NBSP. -/
def goIsSpace (c : Char) : Bool :=
  c == ' ' || c == '\t' || c == '\n' || c == Char.ofNat 11 || c == Char.ofNat 12
  || c == '\r' || c == Char.ofNat 0x85 || c == Char.ofNat 0xA0

/-- Embedding of Go `strings.TrimSpace`: drop white space from both ends. -/
def goTrimSpace (s : String) : String :=
  String.mk (((s.data.dropWhile goIsSpace).reverse.dropWhile goIsSpace).reverse)

/-- Character-level worker for `strings.Split(s, ",")`. -/
def splitCommaAux (cur : List Char) : List Char → List (List Char)
  | [] => [cur.reverse]
  | c :: rest =>
    if c == ',' then cur.reverse :: splitCommaAux [] rest
    else splitCommaAux (c :: cur) rest

/-- Embedding of Go `strings.Split(s, ",")`: the substrings between commas. -/
def goSplitComma (s : String) : List String :=
  (splitCommaAux [] s.data).map String.mk

/-- Character-level worker for `strings.Index(s, "=")`: the text before and
after the first `=`, or `none` when there is no `=`. -/
def splitEqAux (cur : List Char) : List Char → Option (List Char × List Char)
  | [] => none
  | c :: rest =>
    if c == '=' then some (cur.reverse, rest) else splitEqAux (c :: cur) rest

/-- Embedding of the `strings.Index(env, "=")` split in prepareParseEnvVars:
key before the first `=`, value after it; `none` when `=` is absent. -/
def goSplitFirstEq (s : String) : Option (String × String) :=
  (splitEqAux [] s.data).map (fun p => (String.mk p.1, String.mk p.2))

/-- Embedding of the COOLPACK_PACKAGES handling in prepareApplyCustomPackages
(prepare.go lines 288–295): split on commas, trim each entry, drop empties;
nothing when the variable is empty/unset. -/
def coolpackEnvPackages (osEnv : OSEnv) : List String :=
  let e := getenv osEnv "COOLPACK_PACKAGES"
  if e != "" then ((goSplitComma e).map goTrimSpace).filter (fun p => p != "")
  else []

/-- Embedding of prepareApplyCommandOverrides (prepare.go lines 187–208):
for each command, CLI flag if non-empty, else env var if non-empty, else the
prior value. -/
def prepareApplyCommandOverrides (osEnv : OSEnv) (plan : Plan)
    (installCmd buildCmd startCmd : String) : Plan :=
  { plan with
    installCommand :=
      if installCmd != "" then installCmd
      else if getenv osEnv "COOLPACK_INSTALL_CMD" != "" then
        getenv osEnv "COOLPACK_INSTALL_CMD"
      else plan.installCommand,
    buildCommand :=
      if buildCmd != "" then buildCmd
      else if getenv osEnv "COOLPACK_BUILD_CMD" != "" then
        getenv osEnv "COOLPACK_BUILD_CMD"
      else plan.buildCommand,
    startCommand :=
      if startCmd != "" then startCmd
      else if getenv osEnv "COOLPACK_START_CMD" != "" then
        getenv osEnv "COOLPACK_START_CMD"
      else plan.startCommand }

/-- Embedding of prepareApplyStaticServerSetting (prepare.go lines 212–223). -/
def prepareApplyStaticServerSetting (osEnv : OSEnv) (plan : Plan)
    (staticServer : String) : Plan :=
  { plan with metadata :=
    { plan.metadata with static_server :=
        (if staticServer != "" then some staticServer
         else if getenv osEnv "COOLPACK_STATIC_SERVER" != "" then
           some (getenv osEnv "COOLPACK_STATIC_SERVER")
         else plan.metadata.static_server) } }

/-- Embedding of prepareApplySPASetting (prepare.go lines 227–248):
`--no-spa` or COOLPACK_NO_SPA ∈ {"true","1"} deletes the key and returns;
otherwise `--spa` or COOLPACK_SPA ∈ {"true","1"} sets it; otherwise the
auto-detected value stays. -/
def prepareApplySPASetting (osEnv : OSEnv) (plan : Plan)
    (spa noSPA : Bool) : Plan :=
  { plan with metadata :=
    { plan.metadata with is_spa :=
        (if noSPA then false
         else if getenv osEnv "COOLPACK_NO_SPA" == "true"
                 || getenv osEnv "COOLPACK_NO_SPA" == "1" then false
         else if spa then true
         else if getenv osEnv "COOLPACK_SPA" == "true"
                 || getenv osEnv "COOLPACK_SPA" == "1" then true
         else plan.metadata.is_spa) } }

/-- Embedding of prepareApplyOutputDirSetting (prepare.go lines 252–262). -/
def prepareApplyOutputDirSetting (osEnv : OSEnv) (plan : Plan)
    (outputDir : String) : Plan :=
  { plan with metadata :=
    { plan.metadata with output_dir_override :=
        (if outputDir != "" then some outputDir
         else if getenv osEnv "COOLPACK_SPA_OUTPUT_DIR" != "" then
           some (getenv osEnv "COOLPACK_SPA_OUTPUT_DIR")
         else plan.metadata.output_dir_override) } }

/-- Embedding of prepareApplyCustomPackages (prepare.go lines 265–312):
concatenate prior packages, CLI packages, COOLPACK_PACKAGES entries; if the
result is empty leave the plan untouched, else store the first-occurrence
deduplication. -/
def prepareApplyCustomPackages (osEnv : OSEnv) (plan : Plan)
    (packages : List String) : Plan :=
  let customPackages :=
    plan.metadata.custom_packages.getD [] ++ packages ++ coolpackEnvPackages osEnv
  if customPackages = [] then plan
  else
    { plan with metadata :=
      { plan.metadata with custom_packages := some (uniqueFirst customPackages) } }

/-- Embedding of the Go map write `result[key] = value`: overwrite an
existing binding, else append. -/
def mapSet (m : List (String × String)) (key value : String) :
    List (String × String) :=
  if m.any (fun p => p.1 == key) then
    m.map (fun p => if p.1 == key then (key, value) else p)
  else m ++ [(key, value)]

/-- Embedding of prepareParseEnvVars (prepare.go lines 169–183): each
`KEY=value` argument binds KEY (value may contain further `=`); a bare KEY
is looked up in the OS environment and skipped when unset. -/
def prepareParseEnvVars (osEnv : OSEnv) (envArgs : List String) :
    List (String × String) :=
  envArgs.foldl (fun result env =>
    match goSplitFirstEq env with
    | some (key, value) => mapSet result key value
    | none =>
      match lookupEnv osEnv env with
      | some value => mapSet result env value
      | none => result) []

/-- Embedding of the build-env step inside runPrepare (prepare.go lines
137–141): a non-empty parsed mapping replaces the plan's buildEnv wholesale. -/
def prepareApplyBuildEnv (osEnv : OSEnv) (plan : Plan)
    (buildEnvs : List String) : Plan :=
  let envMap := prepareParseEnvVars osEnv buildEnvs
  if envMap.length > 0 then { plan with buildEnv := envMap } else plan

/-- The overlay stages of runPrepare in source order (prepare.go lines
122–141): command overrides, static server, SPA, output dir, custom
packages, build env. -/
def prepareApplyOverlays (osEnv : OSEnv) (flags : Flags) (plan : Plan) : Plan :=
  prepareApplyBuildEnv osEnv
    (prepareApplyCustomPackages osEnv
      (prepareApplyOutputDirSetting osEnv
        (prepareApplySPASetting osEnv
          (prepareApplyStaticServerSetting osEnv
            (prepareApplyCommandOverrides osEnv plan
              flags.installCmd flags.buildCmd flags.startCmd)
            flags.staticServer)
          flags.spa flags.noSPA)
        flags.outputDir)
      flags.packages)
    flags.buildEnvs

/-- Generation error kinds (spec §7; pkg/generator is not under src/). -/
inductive GenError where
  | unsupportedRuntimeVersion
  | noRuntimeStrategy
  | templateFailure
deriving DecidableEq

/-- Modelled from the spec: pkg/generator (the `Generator` component) is not
under src/; only its caller `runPrepare` is.  Per spec §4.3: a base stage per
`language`; a system-package stage when `custom_packages` is non-empty; an
install stage when `installCommand` is non-empty; a build stage (with
`buildEnv` declarations) when `buildCommand` is non-empty; a runtime stage
executing `startCommand` when non-empty, else a static-file-serving stage
(server `static_server`, default caddy) when the plan is static
(`language == static`, or `is_spa` present, or an output directory is
resolved), else `GenerationError{NoRuntimeStrategy}`. -/
def generateDockerfile (plan : Plan) : Except GenError String :=
  let baseStage := "FROM base:" ++ plan.language
  let packagesStage :=
    match plan.metadata.custom_packages with
    | some (p :: ps) => ["RUN apt-get install " ++ String.intercalate " " (p :: ps)]
    | _ => []
  let installStage :=
    if plan.installCommand != "" then ["RUN " ++ plan.installCommand] else []
  let buildStage :=
    if plan.buildCommand != "" then
      [(String.intercalate " " (plan.buildEnv.map (fun p => "ENV " ++ p.1 ++ "=" ++ p.2)))
        ++ "RUN " ++ plan.buildCommand]
    else []
  let runtimeStage :=
    if plan.startCommand != "" then some ("CMD " ++ plan.startCommand)
    else if plan.language == "static" || plan.metadata.is_spa
            || plan.metadata.output_dir_override.isSome then
      some ("STATIC " ++ plan.metadata.static_server.getD "caddy")
    else none
  match runtimeStage with
  | none => Except.error GenError.noRuntimeStrategy
  | some r =>
    Except.ok (String.intercalate "\n"
      ([baseStage] ++ packagesStage ++ installStage ++ buildStage ++ [r]))

/-- Failure modes of prepareLoadPlanFromFile (prepare.go lines 315–327):
a file read failure or a JSON parse failure, kept distinct. -/
inductive LoadError where
  | readFailed (path : String)
  | parseFailed (msg : String)
deriving DecidableEq

/-- The errors runPrepare can return (prepare.go lines 68–166). -/
inductive PrepareError where
  | pathNotExist
  | loadPlanFailed (e : LoadError)
  | detectionFailed (msg : String)
  | noApplicationDetected
  | generateFailed (e : GenError)
deriving DecidableEq

/-- Which base-layer source runPrepare chose for the Plan. -/
inductive PlanSource where
  | fromFile (path : String)
  | fromDetection
  | noSource
deriving DecidableEq

/-- The ambient state runPrepare reads: the resolved project path and whether
it exists, file contents by path (`none` = unreadable/absent), the JSON plan
parser (modelled from the spec: encoding/json unmarshalling of the §6 plan
serialization format; not part of this repository's src/), the detector
result (modelled from the spec: pkg/detector is not under src/; `Except.ok
none` is "no provider matched", `Except.error` a detection failure), the OS
environment, and the CLI flags. -/
structure World where
  absPath : String
  pathExists : Bool
  files : String → Option String
  parsePlan : String → Except String Plan
  detect : Except String (Option Plan)
  osEnv : OSEnv
  flags : Flags

/-- Trace of one runPrepare invocation: the outcome (error, or the generated
Dockerfile text — writing it to disk is external I/O, an artifact exists iff
the outcome is `ok`), the chosen plan source, and which stages ran. -/
structure PrepareResult where
  outcome : Except PrepareError String
  planSource : PlanSource
  detectionAttempted : Bool
  overlaysApplied : Bool
  generatorInvoked : Bool
  resolvedPlan : Option Plan

/-- Embedding of prepareLoadPlanFromFile (prepare.go lines 315–327):
read the file, then parse it as JSON; each step fails distinctly. -/
def prepareLoadPlanFromFile (w : World) (path : String) : Except LoadError Plan :=
  match w.files path with
  | none => Except.error (LoadError.readFailed path)
  | some data =>
    match w.parsePlan data with
    | Except.error msg => Except.error (LoadError.parseFailed msg)
    | Except.ok plan => Except.ok plan

/-- The plan-file selection of runPrepare (prepare.go lines 91–98):
the `--plan` flag if set, else `coolpack.json` in the project root if that
file exists, else none (empty string). -/
def effectivePlanFile (w : World) : String :=
  if w.flags.planFile != "" then w.flags.planFile
  else if (w.files (w.absPath ++ "/coolpack.json")).isSome then
    w.absPath ++ "/coolpack.json"
  else ""

/-- The tail of runPrepare once a base Plan is in hand (prepare.go lines
122–165): apply all overlay stages, then invoke the generator. -/
def prepareFinish (w : World) (src : PlanSource) (det : Bool) (plan : Plan) :
    PrepareResult :=
  let resolved := prepareApplyOverlays w.osEnv w.flags plan
  match generateDockerfile resolved with
  | Except.error e =>
    ⟨Except.error (PrepareError.generateFailed e), src, det, true, true, some resolved⟩
  | Except.ok text => ⟨Except.ok text, src, det, true, true, some resolved⟩

/-- Embedding of runPrepare (prepare.go lines 68–166): check the path, pick
the plan file (`--plan` flag, else `coolpack.json`), load it — or run
detection when there is no plan file — then apply overlays and generate. -/
def runPrepare (w : World) : PrepareResult :=
  if !w.pathExists then
    ⟨Except.error PrepareError.pathNotExist, PlanSource.noSource, false, false, false, none⟩
  else
    let planFile := effectivePlanFile w
    if planFile != "" then
      match prepareLoadPlanFromFile w planFile with
      | Except.error e =>
        ⟨Except.error (PrepareError.loadPlanFailed e), PlanSource.fromFile planFile,
          false, false, false, none⟩
      | Except.ok plan => prepareFinish w (PlanSource.fromFile planFile) false plan
    else
      match w.detect with
      | Except.error msg =>
        ⟨Except.error (PrepareError.detectionFailed msg), PlanSource.fromDetection,
          true, false, false, none⟩
      | Except.ok none =>
        ⟨Except.error PrepareError.noApplicationDetected, PlanSource.fromDetection,
          true, false, false, none⟩
      | Except.ok (some plan) => prepareFinish w PlanSource.fromDetection true plan

/-- Spec-side resolver (§4.2): the last non-empty value among the layers,
starting from the base value. -/
def lastNonEmptyScalar (base : String) (layers : List String) : String :=
  layers.foldl (fun acc v => if v != "" then v else acc) base

/-- Spec-side resolver (§4.2) for optional metadata fields: the last
non-empty layer value, or the base when every layer is empty. -/
def lastNonEmptyMeta (base : Option String) (layers : List String) : Option String :=
  layers.foldl (fun acc v => if v != "" then some v else acc) base

/-- An SPA enable signal fired: the CLI `--spa` flag, or COOLPACK_SPA set to
"true" or "1" (prepare.go lines 242–246). -/
def spaEnableFired (osEnv : OSEnv) (spa : Bool) : Bool :=
  spa || (getenv osEnv "COOLPACK_SPA" == "true" || getenv osEnv "COOLPACK_SPA" == "1")

/-- An SPA disable signal fired: the CLI `--no-spa` flag, or COOLPACK_NO_SPA
set to "true" or "1" (prepare.go lines 233–240). -/
def spaDisableFired (osEnv : OSEnv) (noSPA : Bool) : Bool :=
  noSPA || (getenv osEnv "COOLPACK_NO_SPA" == "true"
    || getenv osEnv "COOLPACK_NO_SPA" == "1")

/-! Frame and value lemmas for the overlay stages. -/

theorem cmdOv_metadata (osEnv : OSEnv) (plan : Plan) (i b s : String) :
    (prepareApplyCommandOverrides osEnv plan i b s).metadata = plan.metadata := rfl

theorem cmdOv_buildEnv (osEnv : OSEnv) (plan : Plan) (i b s : String) :
    (prepareApplyCommandOverrides osEnv plan i b s).buildEnv = plan.buildEnv := rfl

theorem staticSrv_installCommand (osEnv : OSEnv) (plan : Plan) (st : String) :
    (prepareApplyStaticServerSetting osEnv plan st).installCommand
      = plan.installCommand := rfl

theorem staticSrv_is_spa (osEnv : OSEnv) (plan : Plan) (st : String) :
    (prepareApplyStaticServerSetting osEnv plan st).metadata.is_spa
      = plan.metadata.is_spa := rfl

theorem spaSet_installCommand (osEnv : OSEnv) (plan : Plan) (sp nsp : Bool) :
    (prepareApplySPASetting osEnv plan sp nsp).installCommand
      = plan.installCommand := rfl

theorem spaSet_static_server (osEnv : OSEnv) (plan : Plan) (sp nsp : Bool) :
    (prepareApplySPASetting osEnv plan sp nsp).metadata.static_server
      = plan.metadata.static_server := rfl

theorem outDir_is_spa (osEnv : OSEnv) (plan : Plan) (od : String) :
    (prepareApplyOutputDirSetting osEnv plan od).metadata.is_spa
      = plan.metadata.is_spa := rfl

theorem staticSrv_buildEnv (osEnv : OSEnv) (plan : Plan) (st : String) :
    (prepareApplyStaticServerSetting osEnv plan st).buildEnv = plan.buildEnv := rfl

theorem staticSrv_custom_packages (osEnv : OSEnv) (plan : Plan) (st : String) :
    (prepareApplyStaticServerSetting osEnv plan st).metadata.custom_packages
      = plan.metadata.custom_packages := rfl

theorem spaSet_buildEnv (osEnv : OSEnv) (plan : Plan) (sp nsp : Bool) :
    (prepareApplySPASetting osEnv plan sp nsp).buildEnv = plan.buildEnv := rfl

theorem spaSet_custom_packages (osEnv : OSEnv) (plan : Plan) (sp nsp : Bool) :
    (prepareApplySPASetting osEnv plan sp nsp).metadata.custom_packages
      = plan.metadata.custom_packages := rfl

theorem outDir_buildEnv (osEnv : OSEnv) (plan : Plan) (od : String) :
    (prepareApplyOutputDirSetting osEnv plan od).buildEnv = plan.buildEnv := rfl

theorem outDir_custom_packages (osEnv : OSEnv) (plan : Plan) (od : String) :
    (prepareApplyOutputDirSetting osEnv plan od).metadata.custom_packages
      = plan.metadata.custom_packages := rfl

theorem customPkgs_installCommand (osEnv : OSEnv) (plan : Plan) (pkgs : List String) :
    (prepareApplyCustomPackages osEnv plan pkgs).installCommand
      = plan.installCommand := by
  simp only [prepareApplyCustomPackages]
  split <;> rfl

theorem customPkgs_buildCommand (osEnv : OSEnv) (plan : Plan) (pkgs : List String) :
    (prepareApplyCustomPackages osEnv plan pkgs).buildCommand
      = plan.buildCommand := by
  simp only [prepareApplyCustomPackages]
  split <;> rfl

theorem customPkgs_startCommand (osEnv : OSEnv) (plan : Plan) (pkgs : List String) :
    (prepareApplyCustomPackages osEnv plan pkgs).startCommand
      = plan.startCommand := by
  simp only [prepareApplyCustomPackages]
  split <;> rfl

theorem customPkgs_buildEnv (osEnv : OSEnv) (plan : Plan) (pkgs : List String) :
    (prepareApplyCustomPackages osEnv plan pkgs).buildEnv = plan.buildEnv := by
  simp only [prepareApplyCustomPackages]
  split <;> rfl

theorem customPkgs_is_spa (osEnv : OSEnv) (plan : Plan) (pkgs : List String) :
    (prepareApplyCustomPackages osEnv plan pkgs).metadata.is_spa
      = plan.metadata.is_spa := by
  simp only [prepareApplyCustomPackages]
  split <;> rfl

theorem customPkgs_static_server (osEnv : OSEnv) (plan : Plan) (pkgs : List String) :
    (prepareApplyCustomPackages osEnv plan pkgs).metadata.static_server
      = plan.metadata.static_server := by
  simp only [prepareApplyCustomPackages]
  split <;> rfl

theorem customPkgs_output_dir (osEnv : OSEnv) (plan : Plan) (pkgs : List String) :
    (prepareApplyCustomPackages osEnv plan pkgs).metadata.output_dir_override
      = plan.metadata.output_dir_override := by
  simp only [prepareApplyCustomPackages]
  split <;> rfl

theorem customPkgs_value (osEnv : OSEnv) (plan : Plan) (pkgs : List String) :
    (prepareApplyCustomPackages osEnv plan pkgs).metadata.custom_packages
      = (if plan.metadata.custom_packages.getD [] ++ pkgs ++ coolpackEnvPackages osEnv = []
         then plan.metadata.custom_packages
         else some (uniqueFirst
           (plan.metadata.custom_packages.getD [] ++ pkgs ++ coolpackEnvPackages osEnv))) := by
  simp only [prepareApplyCustomPackages]
  split <;> simp_all

theorem buildEnvSt_metadata (osEnv : OSEnv) (plan : Plan) (benvs : List String) :
    (prepareApplyBuildEnv osEnv plan benvs).metadata = plan.metadata := by
  simp only [prepareApplyBuildEnv]
  split <;> rfl

theorem buildEnvSt_installCommand (osEnv : OSEnv) (plan : Plan) (benvs : List String) :
    (prepareApplyBuildEnv osEnv plan benvs).installCommand = plan.installCommand := by
  simp only [prepareApplyBuildEnv]
  split <;> rfl

theorem buildEnvSt_buildCommand (osEnv : OSEnv) (plan : Plan) (benvs : List String) :
    (prepareApplyBuildEnv osEnv plan benvs).buildCommand = plan.buildCommand := by
  simp only [prepareApplyBuildEnv]
  split <;> rfl

theorem buildEnvSt_startCommand (osEnv : OSEnv) (plan : Plan) (benvs : List String) :
    (prepareApplyBuildEnv osEnv plan benvs).startCommand = plan.startCommand := by
  simp only [prepareApplyBuildEnv]
  split <;> rfl

theorem buildEnvSt_value (osEnv : OSEnv) (plan : Plan) (benvs : List String) :
    (prepareApplyBuildEnv osEnv plan benvs).buildEnv
      = (if (prepareParseEnvVars osEnv benvs).length > 0
         then prepareParseEnvVars osEnv benvs
         else plan.buildEnv) := by
  simp only [prepareApplyBuildEnv]
  split <;> simp_all

/-! Properties of first-occurrence deduplication. -/

theorem uniqueFirstAux_nodup (l : List String) :
    ∀ seen : List String,
      (uniqueFirstAux seen l).Nodup ∧ ∀ x ∈ uniqueFirstAux seen l, x ∉ seen := by
  induction l with
  | nil =>
    intro seen
    exact ⟨List.nodup_nil, fun x hx => absurd hx (List.not_mem_nil x)⟩
  | cons p rest ih =>
    intro seen
    by_cases hp : p ∈ seen
    · simpa only [uniqueFirstAux, if_pos hp] using ih seen
    · have h := ih (p :: seen)
      simp only [uniqueFirstAux, if_neg hp]
      refine ⟨List.nodup_cons.mpr ⟨fun hmem => ?_, h.1⟩, fun x hx => ?_⟩
      · exact h.2 p hmem (List.mem_cons_self p seen)
      · rcases List.mem_cons.mp hx with rfl | hx2
        · exact hp
        · exact fun hxs => h.2 x hx2 (List.mem_cons_of_mem p hxs)

theorem uniqueFirst_nodup (l : List String) : (uniqueFirst l).Nodup :=
  (uniqueFirstAux_nodup l []).1

theorem uniqueFirstAux_eq_nil (seen : List String) :
    ∀ m : List String, (∀ x ∈ m, x ∈ seen) → uniqueFirstAux seen m = [] := by
  intro m
  induction m with
  | nil => intro _; rfl
  | cons p rest ih =>
    intro h
    have hp : p ∈ seen := h p (List.mem_cons_self p rest)
    simp only [uniqueFirstAux, if_pos hp]
    exact ih (fun x hx => h x (List.mem_cons_of_mem p hx))

theorem uniqueFirstAux_append_absorb (m : List String) :
    ∀ (l seen : List String), (∀ x ∈ m, x ∈ seen ∨ x ∈ l) →
      uniqueFirstAux seen (l ++ m) = uniqueFirstAux seen l := by
  intro l
  induction l with
  | nil =>
    intro seen h
    have h0 : ∀ x ∈ m, x ∈ seen := by
      intro x hx
      rcases h x hx with hs | hl
      · exact hs
      · exact absurd hl (List.not_mem_nil x)
    simpa only [List.nil_append] using uniqueFirstAux_eq_nil seen m h0
  | cons p rest ih =>
    intro seen h
    by_cases hp : p ∈ seen
    · simp only [List.cons_append, uniqueFirstAux, if_pos hp]
      refine ih seen (fun x hx => ?_)
      rcases h x hx with hs | hc
      · exact Or.inl hs
      · rcases List.mem_cons.mp hc with rfl | hr
        · exact Or.inl hp
        · exact Or.inr hr
    · simp only [List.cons_append, uniqueFirstAux, if_neg hp]
      refine congrArg (p :: ·) (ih (p :: seen) (fun x hx => ?_))
      rcases h x hx with hs | hc
      · exact Or.inl (List.mem_cons_of_mem p hs)
      · rcases List.mem_cons.mp hc with rfl | hr
        · exact Or.inl (List.mem_cons_self x seen)
        · exact Or.inr hr

theorem uniqueFirstAux_idem (m : List String) :
    ∀ (l seen : List String),
      uniqueFirstAux seen (uniqueFirstAux seen l ++ m) = uniqueFirstAux seen (l ++ m) := by
  intro l
  induction l with
  | nil => intro seen; rfl
  | cons p rest ih =>
    intro seen
    by_cases hp : p ∈ seen
    · simp only [uniqueFirstAux, if_pos hp, List.cons_append]
      exact ih seen
    · simp only [uniqueFirstAux, if_neg hp, List.cons_append]
      exact congrArg (p :: ·) (ih (p :: seen))

theorem uniqueFirst_ne_nil (l : List String) (h : l ≠ []) : uniqueFirst l ≠ [] := by
  cases l with
  | nil => exact absurd rfl h
  | cons p rest =>
    simp only [uniqueFirst, uniqueFirstAux, List.not_mem_nil, if_neg (fun h => h)]
    exact List.cons_ne_nil p _

theorem uniqueFirst_absorb_round (base m : List String) :
    uniqueFirst (uniqueFirst (base ++ m) ++ m) = uniqueFirst (base ++ m) := by
  have h1 : uniqueFirst (uniqueFirst (base ++ m) ++ m)
      = uniqueFirst ((base ++ m) ++ m) := uniqueFirstAux_idem m (base ++ m) []
  have h2 : uniqueFirstAux [] ((base ++ m) ++ m) = uniqueFirstAux [] (base ++ m) := by
    refine uniqueFirstAux_append_absorb m (base ++ m) [] (fun x hx => ?_)
    exact Or.inr (List.mem_append_right base hx)
  exact h1.trans h2

/-- The resolved presence of `is_spa` after all overlay stages: a disable
signal at any layer deletes the key; otherwise an enable signal at any layer
(or the auto-detected base value) keeps it. -/
theorem overlays_is_spa (osEnv : OSEnv) (flags : Flags) (plan : Plan) :
    (prepareApplyOverlays osEnv flags plan).metadata.is_spa
      = (!spaDisableFired osEnv flags.noSPA
         && (spaEnableFired osEnv flags.spa || plan.metadata.is_spa)) := by
  simp only [prepareApplyOverlays, buildEnvSt_metadata, customPkgs_is_spa, outDir_is_spa,
    prepareApplySPASetting, spaDisableFired, spaEnableFired, staticSrv_is_spa, cmdOv_metadata]
  cases hnsp : flags.noSPA <;>
  cases hd : (getenv osEnv "COOLPACK_NO_SPA" == "true"
    || getenv osEnv "COOLPACK_NO_SPA" == "1") <;>
  cases hsp : flags.spa <;>
  cases he : (getenv osEnv "COOLPACK_SPA" == "true"
    || getenv osEnv "COOLPACK_SPA" == "1") <;>
  simp

/-- Concrete input for the C1 counterexample: CLI enable flag set, CLI
disable flag unset, COOLPACK_NO_SPA="true" the only disable signal. -/
def exEnvC1 : OSEnv := [("COOLPACK_NO_SPA", "true")]

/-- CLI flags for the C1 counterexample: only `--spa` is set. -/
def exFlagsC1 : Flags := ⟨"", "", "", "", "", true, false, [], [], ""⟩

/-- Base plan for the C1 counterexample: no auto-detected `is_spa`. -/
def exPlanC1 : Plan := ⟨"node", "npm", "", "", "npm start", [], ⟨none, false, none, none⟩⟩

/-- Claim C1 counterexample: with the CLI enable flag `--spa` set and the
only disable signal coming from the lower-priority environment layer
(COOLPACK_NO_SPA="true"), the claim asserts `is_spa` is present in the
final Plan; the code deletes the key, so `is_spa` is absent. -/
theorem spa_env_disable_beats_cli_enable_cex :
    exFlagsC1.spa = true ∧ exFlagsC1.noSPA = false
    ∧ getenv exEnvC1 "COOLPACK_NO_SPA" = "true"
    ∧ (prepareApplyOverlays exEnvC1 exFlagsC1 exPlanC1).metadata.is_spa = false :=
  ⟨rfl, rfl, rfl, rfl⟩

/-- Claim C1 (amended): for every combination of SPA enable/disable signals
across the layers, `is_spa` is present in the final Plan's metadata iff some
enable signal fired (CLI `--spa`, COOLPACK_SPA, or the auto-detected base
value) and no disable signal fired at ANY layer — a disable signal from the
lower-priority environment layer also deletes the key when the CLI enable
flag is set. -/
theorem spa_presence_disable_dominates_all_layers (osEnv : OSEnv) (flags : Flags)
    (plan : Plan) :
    (prepareApplyOverlays osEnv flags plan).metadata.is_spa
      = (!spaDisableFired osEnv flags.noSPA
         && (spaEnableFired osEnv flags.spa || plan.metadata.is_spa)) :=
  overlays_is_spa osEnv flags plan

/-- Claim C6: whenever both an enable and a disable signal for SPA mode are
supplied in a single invocation (at any layers), `is_spa` is absent from the
final Plan's metadata: a negation action always removes the key. -/
theorem spa_negation_always_removes (osEnv : OSEnv) (flags : Flags) (plan : Plan)
    (henable : spaEnableFired osEnv flags.spa = true)
    (hdisable : spaDisableFired osEnv flags.noSPA = true) :
    (prepareApplyOverlays osEnv flags plan).metadata.is_spa = false := by
  rw [overlays_is_spa, hdisable]
  rfl

/-- CLI flags for the C6 witness: `--spa` and `--no-spa` both set. -/
def exFlagsC6 : Flags := ⟨"", "", "", "", "", true, true, [], [], ""⟩

/-- Base plan for the C6 witness, with `is_spa` auto-detected present. -/
def exPlanC6 : Plan := ⟨"node", "npm", "npm ci", "", "npm start", [], ⟨none, true, none, none⟩⟩

/-- Witness for C6 at a concrete input: both CLI signals fired and the final
Plan has no `is_spa`. -/
theorem spa_negation_always_removes_witness :
    spaEnableFired [] exFlagsC6.spa = true ∧ spaDisableFired [] exFlagsC6.noSPA = true
    ∧ (prepareApplyOverlays [] exFlagsC6 exPlanC6).metadata.is_spa = false :=
  ⟨rfl, rfl, spa_negation_always_removes [] exFlagsC6 exPlanC6 rfl rfl⟩

/-- Claim C3: every scalar field (install, build, start command,
static-server choice, output-directory override) resolves to the last
non-empty value in the priority order base < environment < CLI; an
absent/empty override leaves the prior value untouched. -/
theorem scalar_fields_last_non_empty_wins (osEnv : OSEnv) (flags : Flags) (plan : Plan) :
    (prepareApplyOverlays osEnv flags plan).installCommand
      = lastNonEmptyScalar plan.installCommand
          [getenv osEnv "COOLPACK_INSTALL_CMD", flags.installCmd]
    ∧ (prepareApplyOverlays osEnv flags plan).buildCommand
      = lastNonEmptyScalar plan.buildCommand
          [getenv osEnv "COOLPACK_BUILD_CMD", flags.buildCmd]
    ∧ (prepareApplyOverlays osEnv flags plan).startCommand
      = lastNonEmptyScalar plan.startCommand
          [getenv osEnv "COOLPACK_START_CMD", flags.startCmd]
    ∧ (prepareApplyOverlays osEnv flags plan).metadata.static_server
      = lastNonEmptyMeta plan.metadata.static_server
          [getenv osEnv "COOLPACK_STATIC_SERVER", flags.staticServer]
    ∧ (prepareApplyOverlays osEnv flags plan).metadata.output_dir_override
      = lastNonEmptyMeta plan.metadata.output_dir_override
          [getenv osEnv "COOLPACK_SPA_OUTPUT_DIR", flags.outputDir] := by
  refine ⟨?_, ?_, ?_, ?_, ?_⟩
  · simp only [prepareApplyOverlays, buildEnvSt_installCommand, customPkgs_installCommand]
    rfl
  · simp only [prepareApplyOverlays, buildEnvSt_buildCommand, customPkgs_buildCommand]
    rfl
  · simp only [prepareApplyOverlays, buildEnvSt_startCommand, customPkgs_startCommand]
    rfl
  · simp only [prepareApplyOverlays, buildEnvSt_metadata, customPkgs_static_server]
    rfl
  · simp only [prepareApplyOverlays, buildEnvSt_metadata, customPkgs_output_dir]
    rfl

/-- The resolved `custom_packages` value after all overlay stages. -/
theorem overlays_custom_packages (osEnv : OSEnv) (flags : Flags) (plan : Plan) :
    (prepareApplyOverlays osEnv flags plan).metadata.custom_packages
      = (if plan.metadata.custom_packages.getD [] ++ flags.packages
            ++ coolpackEnvPackages osEnv = []
         then plan.metadata.custom_packages
         else some (uniqueFirst (plan.metadata.custom_packages.getD []
            ++ flags.packages ++ coolpackEnvPackages osEnv))) := by
  simp only [prepareApplyOverlays, buildEnvSt_metadata, customPkgs_value,
    outDir_custom_packages, spaSet_custom_packages, staticSrv_custom_packages,
    cmdOv_metadata]

/-- Claim C2: the resolved `custom_packages` list is the concatenation of the
prior-accumulated packages, the CLI packages and the COOLPACK_PACKAGES
entries (comma-split, trimmed, empties dropped), deduplicated preserving the
first occurrence; hence it never contains duplicates. -/
theorem custom_packages_union_dedup (osEnv : OSEnv) (flags : Flags) (plan : Plan) :
    ((prepareApplyOverlays osEnv flags plan).metadata.custom_packages).getD []
      = uniqueFirst (plan.metadata.custom_packages.getD [] ++ flags.packages
          ++ coolpackEnvPackages osEnv)
    ∧ (((prepareApplyOverlays osEnv flags plan).metadata.custom_packages).getD []).Nodup := by
  have hfirst : ((prepareApplyOverlays osEnv flags plan).metadata.custom_packages).getD []
      = uniqueFirst (plan.metadata.custom_packages.getD [] ++ flags.packages
          ++ coolpackEnvPackages osEnv) := by
    rw [overlays_custom_packages]
    by_cases h : plan.metadata.custom_packages.getD [] ++ flags.packages
        ++ coolpackEnvPackages osEnv = []
    · rw [if_pos h, h]
      have h1 : plan.metadata.custom_packages.getD [] ++ flags.packages = [] :=
        (List.append_eq_nil.mp h).1
      have h2 : plan.metadata.custom_packages.getD [] = [] :=
        (List.append_eq_nil.mp h1).1
      rw [h2]
      rfl
    · rw [if_neg h]
      rfl
  exact ⟨hfirst, hfirst ▸ uniqueFirst_nodup _⟩

/-- Claim C7: the build-environment override is all-or-nothing — a non-empty
parsed mapping replaces the Plan's entire buildEnv, and an empty one leaves
the prior mapping completely unchanged. -/
theorem build_env_all_or_nothing (osEnv : OSEnv) (flags : Flags) (plan : Plan) :
    (prepareApplyOverlays osEnv flags plan).buildEnv
      = (if (prepareParseEnvVars osEnv flags.buildEnvs).length > 0
         then prepareParseEnvVars osEnv flags.buildEnvs
         else plan.buildEnv) := by
  simp only [prepareApplyOverlays, buildEnvSt_value, customPkgs_buildEnv,
    outDir_buildEnv, spaSet_buildEnv, staticSrv_buildEnv, cmdOv_buildEnv]

/-- A two-step last-non-empty chain is unchanged by a second pass with the
same override values. -/
theorem resolve_chain_twice {α : Type} (c1 c2 : Prop) [Decidable c1] [Decidable c2]
    (v1 v2 base : α) :
    (if c1 then v1 else if c2 then v2 else (if c1 then v1 else if c2 then v2 else base))
      = (if c1 then v1 else if c2 then v2 else base) := by
  by_cases h1 : c1 <;> by_cases h2 : c2 <;> simp [h1, h2]

/-- A four-step priority chain is unchanged by a second pass with the same
override values. -/
theorem resolve_chain4_twice {α : Type} (c1 c2 c3 c4 : Prop)
    [Decidable c1] [Decidable c2] [Decidable c3] [Decidable c4]
    (v1 v2 v3 v4 base : α) :
    (if c1 then v1 else if c2 then v2 else if c3 then v3 else if c4 then v4 else
      (if c1 then v1 else if c2 then v2 else if c3 then v3 else if c4 then v4 else base))
      = (if c1 then v1 else if c2 then v2 else if c3 then v3 else if c4 then v4 else base) := by
  by_cases h1 : c1 <;> by_cases h2 : c2 <;> by_cases h3 : c3 <;> by_cases h4 : c4 <;>
    simp [h1, h2, h3, h4]

theorem cmdOv_idem (osEnv : OSEnv) (plan : Plan) (i b s : String) :
    prepareApplyCommandOverrides osEnv (prepareApplyCommandOverrides osEnv plan i b s) i b s
      = prepareApplyCommandOverrides osEnv plan i b s := by
  cases plan
  simp only [prepareApplyCommandOverrides, Plan.mk.injEq]
  exact ⟨trivial, trivial, resolve_chain_twice _ _ _ _ _, resolve_chain_twice _ _ _ _ _,
    resolve_chain_twice _ _ _ _ _, trivial, trivial⟩

theorem staticSrv_idem (osEnv : OSEnv) (plan : Plan) (st : String) :
    prepareApplyStaticServerSetting osEnv (prepareApplyStaticServerSetting osEnv plan st) st
      = prepareApplyStaticServerSetting osEnv plan st := by
  cases plan with
  | mk lang pm ic bc sc be md =>
    cases md
    simp only [prepareApplyStaticServerSetting, Plan.mk.injEq, Metadata.mk.injEq]
    exact ⟨trivial, trivial, trivial, trivial, trivial, trivial,
      resolve_chain_twice _ _ _ _ _, trivial, trivial, trivial⟩

theorem spaSet_idem (osEnv : OSEnv) (plan : Plan) (sp nsp : Bool) :
    prepareApplySPASetting osEnv (prepareApplySPASetting osEnv plan sp nsp) sp nsp
      = prepareApplySPASetting osEnv plan sp nsp := by
  cases plan with
  | mk lang pm ic bc sc be md =>
    cases md
    simp only [prepareApplySPASetting, Plan.mk.injEq, Metadata.mk.injEq]
    exact ⟨trivial, trivial, trivial, trivial, trivial, trivial, trivial,
      resolve_chain4_twice _ _ _ _ _ _ _ _ _, trivial, trivial⟩

theorem outDir_idem (osEnv : OSEnv) (plan : Plan) (od : String) :
    prepareApplyOutputDirSetting osEnv (prepareApplyOutputDirSetting osEnv plan od) od
      = prepareApplyOutputDirSetting osEnv plan od := by
  cases plan with
  | mk lang pm ic bc sc be md =>
    cases md
    simp only [prepareApplyOutputDirSetting, Plan.mk.injEq, Metadata.mk.injEq]
    exact ⟨trivial, trivial, trivial, trivial, trivial, trivial, trivial, trivial,
      resolve_chain_twice _ _ _ _ _, trivial⟩

theorem customPkgs_idem (osEnv : OSEnv) (plan : Plan) (pkgs : List String) :
    prepareApplyCustomPackages osEnv (prepareApplyCustomPackages osEnv plan pkgs) pkgs
      = prepareApplyCustomPackages osEnv plan pkgs := by
  cases plan with
  | mk lang pm ic bc sc be md =>
    cases md with
    | mk ss spa odo cp =>
      by_cases h : cp.getD [] ++ pkgs ++ coolpackEnvPackages osEnv = []
      · have h1 : prepareApplyCustomPackages osEnv ⟨lang, pm, ic, bc, sc, be,
            ⟨ss, spa, odo, cp⟩⟩ pkgs = ⟨lang, pm, ic, bc, sc, be, ⟨ss, spa, odo, cp⟩⟩ := by
          simp only [prepareApplyCustomPackages, if_pos h]
        rw [h1, h1]
      · have hne2 : uniqueFirst (cp.getD [] ++ pkgs ++ coolpackEnvPackages osEnv)
            ++ pkgs ++ coolpackEnvPackages osEnv ≠ [] := by
          intro hc
          have hc1 := (List.append_eq_nil.mp hc).1
          have hc2 := (List.append_eq_nil.mp hc1).1
          exact uniqueFirst_ne_nil _ h hc2
        simp only [prepareApplyCustomPackages, if_neg h, Option.getD_some, if_neg hne2]
        simp
        exact uniqueFirst_absorb_round _ _

theorem buildEnvSt_idem (osEnv : OSEnv) (plan : Plan) (benvs : List String) :
    prepareApplyBuildEnv osEnv (prepareApplyBuildEnv osEnv plan benvs) benvs
      = prepareApplyBuildEnv osEnv plan benvs := by
  cases plan
  simp only [prepareApplyBuildEnv]
  split <;> rfl

/-- Claim C9: every overlay stage is idempotent for a fixed set of override
inputs — applying the same stage twice yields the same Plan as applying it
once; in particular the command overrides, the SPA setting and the
custom-packages merge (together with the static-server, output-directory and
build-env stages). -/
theorem overlay_stages_idempotent (osEnv : OSEnv) (plan : Plan) (i b s st od : String)
    (sp nsp : Bool) (pkgs benvs : List String) :
    prepareApplyCommandOverrides osEnv (prepareApplyCommandOverrides osEnv plan i b s) i b s
      = prepareApplyCommandOverrides osEnv plan i b s
    ∧ prepareApplySPASetting osEnv (prepareApplySPASetting osEnv plan sp nsp) sp nsp
      = prepareApplySPASetting osEnv plan sp nsp
    ∧ prepareApplyCustomPackages osEnv (prepareApplyCustomPackages osEnv plan pkgs) pkgs
      = prepareApplyCustomPackages osEnv plan pkgs
    ∧ prepareApplyStaticServerSetting osEnv
        (prepareApplyStaticServerSetting osEnv plan st) st
      = prepareApplyStaticServerSetting osEnv plan st
    ∧ prepareApplyOutputDirSetting osEnv (prepareApplyOutputDirSetting osEnv plan od) od
      = prepareApplyOutputDirSetting osEnv plan od
    ∧ prepareApplyBuildEnv osEnv (prepareApplyBuildEnv osEnv plan benvs) benvs
      = prepareApplyBuildEnv osEnv plan benvs :=
  ⟨cmdOv_idem osEnv plan i b s, spaSet_idem osEnv plan sp nsp,
    customPkgs_idem osEnv plan pkgs, staticSrv_idem osEnv plan st,
    outDir_idem osEnv plan od, buildEnvSt_idem osEnv plan benvs⟩

/-! Behaviour of the runPrepare pipeline. -/

theorem prepareFinish_planSource (w : World) (src : PlanSource) (det : Bool) (plan : Plan) :
    (prepareFinish w src det plan).planSource = src := by
  simp only [prepareFinish]
  cases generateDockerfile (prepareApplyOverlays w.osEnv w.flags plan) <;> rfl

theorem prepareFinish_detectionAttempted (w : World) (src : PlanSource) (det : Bool)
    (plan : Plan) : (prepareFinish w src det plan).detectionAttempted = det := by
  simp only [prepareFinish]
  cases generateDockerfile (prepareApplyOverlays w.osEnv w.flags plan) <;> rfl

theorem prepareFinish_overlaysApplied (w : World) (src : PlanSource) (det : Bool)
    (plan : Plan) : (prepareFinish w src det plan).overlaysApplied = true := by
  simp only [prepareFinish]
  cases generateDockerfile (prepareApplyOverlays w.osEnv w.flags plan) <;> rfl

theorem prepareFinish_generatorInvoked (w : World) (src : PlanSource) (det : Bool)
    (plan : Plan) : (prepareFinish w src det plan).generatorInvoked = true := by
  simp only [prepareFinish]
  cases generateDockerfile (prepareApplyOverlays w.osEnv w.flags plan) <;> rfl

theorem prepareFinish_resolvedPlan (w : World) (src : PlanSource) (det : Bool)
    (plan : Plan) : (prepareFinish w src det plan).resolvedPlan
      = some (prepareApplyOverlays w.osEnv w.flags plan) := by
  simp only [prepareFinish]
  cases generateDockerfile (prepareApplyOverlays w.osEnv w.flags plan) <;> rfl

theorem prepareFinish_outcome (w : World) (src : PlanSource) (det : Bool) (plan : Plan) :
    (prepareFinish w src det plan).outcome
      = (match generateDockerfile (prepareApplyOverlays w.osEnv w.flags plan) with
         | Except.error e => Except.error (PrepareError.generateFailed e)
         | Except.ok text => Except.ok text) := by
  simp only [prepareFinish]
  cases generateDockerfile (prepareApplyOverlays w.osEnv w.flags plan) <;> rfl

theorem runPrepare_load_error (w : World) (e : LoadError) (hpath : w.pathExists = true)
    (hfile : effectivePlanFile w ≠ "")
    (hl : prepareLoadPlanFromFile w (effectivePlanFile w) = Except.error e) :
    runPrepare w = ⟨Except.error (PrepareError.loadPlanFailed e),
      PlanSource.fromFile (effectivePlanFile w), false, false, false, none⟩ := by
  simp [runPrepare, hpath, hfile, hl]

theorem runPrepare_load_ok (w : World) (p : Plan) (hpath : w.pathExists = true)
    (hfile : effectivePlanFile w ≠ "")
    (hl : prepareLoadPlanFromFile w (effectivePlanFile w) = Except.ok p) :
    runPrepare w = prepareFinish w (PlanSource.fromFile (effectivePlanFile w)) false p := by
  simp [runPrepare, hpath, hfile, hl]

theorem runPrepare_detect_err (w : World) (msg : String) (hpath : w.pathExists = true)
    (hfile : effectivePlanFile w = "") (hd : w.detect = Except.error msg) :
    runPrepare w = ⟨Except.error (PrepareError.detectionFailed msg),
      PlanSource.fromDetection, true, false, false, none⟩ := by
  simp [runPrepare, hpath, hfile, hd]

theorem runPrepare_detect_none (w : World) (hpath : w.pathExists = true)
    (hfile : effectivePlanFile w = "") (hd : w.detect = Except.ok none) :
    runPrepare w = ⟨Except.error PrepareError.noApplicationDetected,
      PlanSource.fromDetection, true, false, false, none⟩ := by
  simp [runPrepare, hpath, hfile, hd]

theorem runPrepare_detect_some (w : World) (p : Plan) (hpath : w.pathExists = true)
    (hfile : effectivePlanFile w = "") (hd : w.detect = Except.ok (some p)) :
    runPrepare w = prepareFinish w PlanSource.fromDetection true p := by
  simp [runPrepare, hpath, hfile, hd]

theorem append_coolpack_ne_empty (s : String) : s ++ "/coolpack.json" ≠ "" := by
  intro h
  have hlen : (s ++ "/coolpack.json").length = 0 := h ▸ rfl
  rw [String.length_append] at hlen
  have h14 : ("/coolpack.json" : String).length = 14 := rfl
  omega

/-- Claim C5: when a plan file is supplied (or found) and it fails to parse,
a distinct parse error is returned immediately, detection is never attempted,
no overlay stage runs, the generator is never invoked, and no artifact is
produced. -/
theorem plan_file_parse_failure_aborts (w : World) (msg : String)
    (hpath : w.pathExists = true) (hfile : effectivePlanFile w ≠ "")
    (hparse : prepareLoadPlanFromFile w (effectivePlanFile w)
      = Except.error (LoadError.parseFailed msg)) :
    (runPrepare w).outcome
      = Except.error (PrepareError.loadPlanFailed (LoadError.parseFailed msg))
    ∧ (runPrepare w).detectionAttempted = false
    ∧ (runPrepare w).overlaysApplied = false
    ∧ (runPrepare w).generatorInvoked = false
    ∧ ∀ text, (runPrepare w).outcome ≠ Except.ok text := by
  have hr := runPrepare_load_error w (LoadError.parseFailed msg) hpath hfile hparse
  rw [hr]
  exact ⟨rfl, rfl, rfl, rfl, fun text hc => Except.noConfusion hc⟩

/-- World for the C5 witness: `--plan bad.json` supplied, the file readable
but unparsable. -/
def wC5 : World :=
  ⟨"/app", true, fun _ => some "not json", fun _ => Except.error "invalid character",
    Except.ok none, [], ⟨"", "", "", "", "", false, false, [], [], "bad.json"⟩⟩

/-- Witness for C5 at a concrete input. -/
theorem plan_file_parse_failure_aborts_witness :
    wC5.pathExists = true ∧ effectivePlanFile wC5 ≠ ""
    ∧ (runPrepare wC5).outcome
        = Except.error (PrepareError.loadPlanFailed (LoadError.parseFailed "invalid character"))
    ∧ (runPrepare wC5).detectionAttempted = false
    ∧ (runPrepare wC5).generatorInvoked = false := by
  have h := plan_file_parse_failure_aborts wC5 "invalid character" rfl (by decide) rfl
  exact ⟨rfl, by decide, h.1, h.2.1, h.2.2.2.1⟩

/-- Claim C8: when no plan file is supplied or found and no provider matches
(the detector reports no application), the pipeline returns the
no-application-detected error, aborts before any overlay or generation step,
and produces no artifact. -/
theorem no_provider_match_aborts (w : World) (hpath : w.pathExists = true)
    (hfile : effectivePlanFile w = "") (hdetect : w.detect = Except.ok none) :
    (runPrepare w).outcome = Except.error PrepareError.noApplicationDetected
    ∧ (runPrepare w).detectionAttempted = true
    ∧ (runPrepare w).overlaysApplied = false
    ∧ (runPrepare w).generatorInvoked = false
    ∧ ∀ text, (runPrepare w).outcome ≠ Except.ok text := by
  have hr := runPrepare_detect_none w hpath hfile hdetect
  rw [hr]
  exact ⟨rfl, rfl, rfl, rfl, fun text hc => Except.noConfusion hc⟩

/-- World for the C8 witness: an empty directory — no plan file anywhere and
no provider match. -/
def wC8 : World :=
  ⟨"/empty", true, fun _ => none, fun _ => Except.error "no data", Except.ok none, [],
    ⟨"", "", "", "", "", false, false, [], [], ""⟩⟩

/-- Witness for C8 at a concrete input. -/
theorem no_provider_match_aborts_witness :
    wC8.pathExists = true ∧ effectivePlanFile wC8 = "" ∧ wC8.detect = Except.ok none
    ∧ (runPrepare wC8).outcome = Except.error PrepareError.noApplicationDetected
    ∧ (runPrepare wC8).overlaysApplied = false
    ∧ (runPrepare wC8).generatorInvoked = false := by
  have h := no_provider_match_aborts wC8 rfl rfl rfl
  exact ⟨rfl, rfl, rfl, h.1, h.2.2.1, h.2.2.2.1⟩

theorem effectivePlanFile_from_flag (w : World) (hflag : w.flags.planFile ≠ "") :
    effectivePlanFile w = w.flags.planFile := by
  simp [effectivePlanFile, hflag]

theorem effectivePlanFile_from_json (w : World) (hflag : w.flags.planFile = "")
    (hjson : (w.files (w.absPath ++ "/coolpack.json")).isSome = true) :
    effectivePlanFile w = w.absPath ++ "/coolpack.json" := by
  simp [effectivePlanFile, hflag, hjson]

theorem effectivePlanFile_empty (w : World) (hflag : w.flags.planFile = "")
    (hjson : (w.files (w.absPath ++ "/coolpack.json")).isSome = false) :
    effectivePlanFile w = "" := by
  simp [effectivePlanFile, hflag, hjson]

theorem runPrepare_no_detection_of_file (w : World) (hpath : w.pathExists = true)
    (hfile : effectivePlanFile w ≠ "") :
    (runPrepare w).detectionAttempted = false := by
  cases hl : prepareLoadPlanFromFile w (effectivePlanFile w) with
  | error e =>
    rw [runPrepare_load_error w e hpath hfile hl]
  | ok p =>
    rw [runPrepare_load_ok w p hpath hfile hl]
    exact prepareFinish_detectionAttempted w _ false p

/-- Claim C10: when the `--plan` flag is not supplied but `coolpack.json`
exists in the project root, that file becomes the plan-file base layer and
detection is never attempted; detection runs exactly when neither the flag
is given nor `coolpack.json` exists. -/
theorem plan_file_discovery_before_detection (w : World) (hpath : w.pathExists = true) :
    (w.flags.planFile = "" → (w.files (w.absPath ++ "/coolpack.json")).isSome = true →
      (runPrepare w).planSource = PlanSource.fromFile (w.absPath ++ "/coolpack.json")
      ∧ (runPrepare w).detectionAttempted = false)
    ∧ ((runPrepare w).detectionAttempted = true
        ↔ w.flags.planFile = "" ∧ (w.files (w.absPath ++ "/coolpack.json")).isSome = false) := by
  constructor
  · intro hflag hjson
    have heff : effectivePlanFile w = w.absPath ++ "/coolpack.json" :=
      effectivePlanFile_from_json w hflag hjson
    have hfile : effectivePlanFile w ≠ "" := by
      rw [heff]; exact append_coolpack_ne_empty w.absPath
    refine ⟨?_, runPrepare_no_detection_of_file w hpath hfile⟩
    cases hl : prepareLoadPlanFromFile w (effectivePlanFile w) with
    | error e =>
      rw [runPrepare_load_error w e hpath hfile hl, ← heff]
    | ok p =>
      rw [runPrepare_load_ok w p hpath hfile hl, ← heff]
      exact prepareFinish_planSource w _ false p
  · constructor
    · intro hdet
      by_cases hflag : w.flags.planFile = ""
      · by_cases hjson : (w.files (w.absPath ++ "/coolpack.json")).isSome = true
        · have heff := effectivePlanFile_from_json w hflag hjson
          have hfile : effectivePlanFile w ≠ "" := by
            rw [heff]; exact append_coolpack_ne_empty w.absPath
          rw [runPrepare_no_detection_of_file w hpath hfile] at hdet
          exact absurd hdet (by simp)
        · exact ⟨hflag, Bool.eq_false_iff.mpr (fun hc => hjson hc)⟩
      · have hfile : effectivePlanFile w ≠ "" := by
          rw [effectivePlanFile_from_flag w hflag]; exact hflag
        rw [runPrepare_no_detection_of_file w hpath hfile] at hdet
        exact absurd hdet (by simp)
    · rintro ⟨hflag, hjson⟩
      have hfile : effectivePlanFile w = "" := effectivePlanFile_empty w hflag hjson
      cases hd : w.detect with
      | error msg =>
        rw [runPrepare_detect_err w msg hpath hfile hd]
      | ok o =>
        cases o with
        | none => rw [runPrepare_detect_none w hpath hfile hd]
        | some p =>
          rw [runPrepare_detect_some w p hpath hfile hd]
          exact prepareFinish_detectionAttempted w _ true p

/-- Plan for the C10 witness, loadable from /app/coolpack.json. -/
def pC10 : Plan := ⟨"node", "npm", "npm ci", "", "npm start", [], ⟨none, false, none, none⟩⟩

/-- World for the C10 witness: no `--plan` flag, but coolpack.json exists in
the project root. -/
def wC10 : World :=
  ⟨"/app", true, fun path => if path == "/app/coolpack.json" then some "plan data" else none,
    fun _ => Except.ok pC10, Except.error "detection must not run", [],
    ⟨"", "", "", "", "", false, false, [], [], ""⟩⟩

/-- Witness for C10 at a concrete input. -/
theorem plan_file_discovery_before_detection_witness :
    wC10.pathExists = true ∧ wC10.flags.planFile = ""
    ∧ (wC10.files (wC10.absPath ++ "/coolpack.json")).isSome = true
    ∧ (runPrepare wC10).planSource = PlanSource.fromFile (wC10.absPath ++ "/coolpack.json")
    ∧ (runPrepare wC10).detectionAttempted = false := by
  have h := (plan_file_discovery_before_detection wC10 rfl).1 rfl rfl
  exact ⟨rfl, rfl, rfl, h.1, h.2⟩

theorem generateDockerfile_no_strategy (p : Plan) (hs : p.startCommand = "")
    (hlang : p.language ≠ "static") (hspa : p.metadata.is_spa = false)
    (hout : p.metadata.output_dir_override = none) :
    generateDockerfile p = Except.error GenError.noRuntimeStrategy := by
  simp [generateDockerfile, hs, hspa, hout, hlang]

theorem runPrepare_resolved_invoked (w : World) (p : Plan)
    (hres : (runPrepare w).resolvedPlan = some p) :
    (runPrepare w).generatorInvoked = true
    ∧ (runPrepare w).outcome = (match generateDockerfile p with
        | Except.error e => Except.error (PrepareError.generateFailed e)
        | Except.ok text => Except.ok text) := by
  cases hpe : w.pathExists with
  | false => simp [runPrepare, hpe] at hres
  | true =>
    by_cases hfe : effectivePlanFile w = ""
    · cases hd : w.detect with
      | error msg => rw [runPrepare_detect_err w msg hpe hfe hd] at hres ⊢; simp at hres
      | ok o =>
        cases o with
        | none => rw [runPrepare_detect_none w hpe hfe hd] at hres ⊢; simp at hres
        | some plan =>
          rw [runPrepare_detect_some w plan hpe hfe hd] at hres ⊢
          rw [prepareFinish_resolvedPlan] at hres
          have hp := Option.some.inj hres
          rw [prepareFinish_generatorInvoked, prepareFinish_outcome, hp]
          exact ⟨rfl, rfl⟩
    · cases hl : prepareLoadPlanFromFile w (effectivePlanFile w) with
      | error e => rw [runPrepare_load_error w e hpe hfe hl] at hres ⊢; simp at hres
      | ok plan =>
        rw [runPrepare_load_ok w plan hpe hfe hl] at hres ⊢
        rw [prepareFinish_resolvedPlan] at hres
        have hp := Option.some.inj hres
        rw [prepareFinish_generatorInvoked, prepareFinish_outcome, hp]
        exact ⟨rfl, rfl⟩

/-- Plan for C4: all three commands empty and language not static — invalid
per the spec's §3 invariant. -/
def pInvalidC4 : Plan := ⟨"node", "npm", "", "", "", [], ⟨none, false, none, none⟩⟩

/-- World for C4: a plan file supplying the invalid plan, no overrides. -/
def wC4 : World :=
  ⟨"/app", true, fun path => if path == "plan.json" then some "data" else none,
    fun _ => Except.ok pInvalidC4, Except.ok none, [],
    ⟨"", "", "", "", "", false, false, [], [], "plan.json"⟩⟩

/-- Claim C4 counterexample: for the invalid resolved Plan (all commands
empty, language ≠ static) the claim asserts the pipeline aborts with a
validation error before the Generator is invoked; in the code there is no
validation stage and the Generator IS invoked on this plan. -/
theorem no_validation_stage_cex :
    pInvalidC4.installCommand = "" ∧ pInvalidC4.buildCommand = ""
    ∧ pInvalidC4.startCommand = "" ∧ pInvalidC4.language ≠ "static"
    ∧ (runPrepare wC4).resolvedPlan = some pInvalidC4
    ∧ (runPrepare wC4).generatorInvoked = true :=
  ⟨rfl, rfl, rfl, by decide, rfl, rfl⟩

/-- Claim C4 (amended): there is no validation stage between overlay
resolution and generation; a resolved Plan with installCommand, buildCommand
and startCommand all empty, language ≠ static, no `is_spa` and no output-dir
override is handed to the Generator, which rejects it with a
no-runtime-strategy generation error, so the pipeline fails and produces no
artifact — but only after the Generator has been invoked. -/
theorem invalid_plan_reaches_generator (w : World) (p : Plan)
    (hres : (runPrepare w).resolvedPlan = some p)
    (hi : p.installCommand = "") (hb : p.buildCommand = "") (hs : p.startCommand = "")
    (hlang : p.language ≠ "static") (hspa : p.metadata.is_spa = false)
    (hout : p.metadata.output_dir_override = none) :
    (runPrepare w).generatorInvoked = true
    ∧ (runPrepare w).outcome
        = Except.error (PrepareError.generateFailed GenError.noRuntimeStrategy) := by
  obtain ⟨hg, ho⟩ := runPrepare_resolved_invoked w p hres
  refine ⟨hg, ?_⟩
  rw [ho, generateDockerfile_no_strategy p hs hlang hspa hout]

/-- Witness for the amended C4 at a concrete input. -/
theorem invalid_plan_reaches_generator_witness :
    (runPrepare wC4).resolvedPlan = some pInvalidC4
    ∧ (runPrepare wC4).generatorInvoked = true
    ∧ (runPrepare wC4).outcome
        = Except.error (PrepareError.generateFailed GenError.noRuntimeStrategy) := by
  have h := invalid_plan_reaches_generator wC4 pInvalidC4 rfl rfl rfl rfl
    (by decide) rfl rfl
  exact ⟨rfl, h.1, h.2⟩

end Coolpack
